import Mathlib

/-!
Verification of the law-listener proposal ingestion-and-linking pipeline.

The definitions below are shallow embeddings of the TypeScript sources:
JavaScript strings become `List Char` / `String`, dynamically typed JSON
values become the `JsValue` inductive, fallible operations return `Option`,
and the database reachable from the edge functions is an explicit oracle
recording which operations were performed.
-/

/-- The JavaScript whitespace class: the characters matched by the regex
class backslash-s and removed by `String.prototype.trim`
(WhiteSpace plus LineTerminator code points). -/
def jsWs (c : Char) : Bool :=
  let n := c.toNat
  n == 0x9 || n == 0xA || n == 0xB || n == 0xC || n == 0xD || n == 0x20 ||
  n == 0xA0 || n == 0x1680 || (decide (0x2000 <= n) && decide (n <= 0x200A)) ||
  n == 0x2028 || n == 0x2029 || n == 0x202F || n == 0x205F || n == 0x3000 ||
  n == 0xFEFF

/-- JavaScript `String.prototype.trim` on character lists: drop leading and
trailing JS whitespace. -/
def jsTrimList (cs : List Char) : List Char :=
  ((cs.dropWhile jsWs).reverse.dropWhile jsWs).reverse

/-- JavaScript `String.prototype.trim` on Lean strings. -/
def jsTrim (s : String) : String :=
  String.mk (jsTrimList s.data)

/-- JavaScript `String.prototype.startsWith`. -/
def strStartsWith (s pre : String) : Bool :=
  pre.data.isPrefixOf s.data

/-- Substring containment on character lists (JavaScript `includes`). -/
def listContainsSub (needle : List Char) : List Char → Bool
  | [] => needle.isEmpty
  | c :: rest => needle.isPrefixOf (c :: rest) || listContainsSub needle rest

/-- JavaScript `String.prototype.includes`. -/
def strContainsSub (s sub : String) : Bool :=
  listContainsSub sub.data s.data

/-- JavaScript `String.prototype.split` with separator a comma: splits a
character list on every comma; the empty list yields one empty segment,
exactly as in JavaScript. -/
def splitComma : List Char → List (List Char)
  | [] => [[]]
  | c :: rest =>
    if c = ',' then [] :: splitComma rest
    else
      match splitComma rest with
      | [] => [[c]]
      | seg :: segs => (c :: seg) :: segs

/-- A JSON-ish JavaScript runtime value, as received by the edge-function
handlers after `req.json()`. -/
inductive JsValue where
  | str (s : String)
  | num (n : Int)
  | bool (b : Bool)
  | null
  | undef
  | arr (elems : List JsValue)
  | obj
  deriving Repr

/-! ## `supabase/functions/match-and-link-laws/payload.ts` -/

/-- The five sentinel enforcement tokens (`ENFORCEMENT_TOKENS` in
`payload.ts`). -/
def ENFORCEMENT_TOKENS : List String :=
  ["KONGEN_BESTEMMER", "STRAKS", "FLERE_DATOER", "PARSER_IKKE_FUNNET", "PARSER_FEIL"]

/-- ASCII digit test, the regex class backslash-d. -/
def isAsciiDigit (c : Char) : Bool :=
  '0' ≤ c && c ≤ '9'

/-- Numeric value of an ASCII digit character. -/
def digitVal (c : Char) : Nat :=
  c.toNat - 48

/-- Gregorian leap-year rule, as implemented by the ECMAScript `Date`
object (proleptic Gregorian calendar). -/
def isLeapYear (y : Nat) : Bool :=
  (y % 4 == 0 && !(y % 100 == 0)) || y % 400 == 0

/-- Number of days in a month of a given year (ECMAScript `Date`
semantics). -/
def daysInMonth (y m : Nat) : Nat :=
  if m = 2 then (if isLeapYear y then 29 else 28)
  else if m = 4 ∨ m = 6 ∨ m = 9 ∨ m = 11 then 30
  else 31

/-- The year denoted by four ASCII digit characters. -/
def yearOf (a b c d : Char) : Nat :=
  ((digitVal a * 10 + digitVal b) * 10 + digitVal c) * 10 + digitVal d

/-- Embeds `isValidIsoDate` from `payload.ts`.  The source first tests the regex
anchored-digit pattern `YYYY-MM-DD` and then round-trips the value through
`new Date(value + "T00:00:00Z")` followed by `toISOString`.  For strings of
the regex shape, the V8 `Date` parser yields an invalid date when the month
is outside 01..12 or the day is outside 01..31, and rolls an in-range day
that exceeds the month length over into the next month, which the
`toISOString` round-trip then rejects.  The net semantics embedded here:
the string is accepted exactly when it is ten characters `YYYY-MM-DD`
denoting a real proleptic-Gregorian calendar date. -/
def isValidIsoDate (s : String) : Bool :=
  match s.data with
  | [y1, y2, y3, y4, h1, m1, m2, h2, d1, d2] =>
    isAsciiDigit y1 && isAsciiDigit y2 && isAsciiDigit y3 && isAsciiDigit y4 &&
    h1 == '-' && isAsciiDigit m1 && isAsciiDigit m2 &&
    h2 == '-' && isAsciiDigit d1 && isAsciiDigit d2 &&
    (let y := yearOf y1 y2 y3 y4
     let m := digitVal m1 * 10 + digitVal m2
     let d := digitVal d1 * 10 + digitVal d2
     decide (1 ≤ m) && decide (m ≤ 12) && decide (1 ≤ d) && decide (d ≤ daysInMonth y m))
  | _ => false

/-- Embeds `normalizeExtractedIds` from `payload.ts` (duplicated verbatim inside
`match-and-link-laws/index.ts`): arrays keep exactly their string elements
in order, strings are split on commas with each segment trimmed, and every
other runtime type yields `null`. -/
def normalizeExtractedIds (value : JsValue) : Option (List String) :=
  match value with
  | .arr elems =>
    some (elems.filterMap fun item =>
      match item with
      | .str s => some s
      | _ => none)
  | .str s =>
    some ((splitComma s.data).map fun entry => String.mk (jsTrimList entry))
  | _ => none

/-- Embeds `normalizeEnforcementDate` from `payload.ts`. -/
def normalizeEnforcementDate (value : JsValue) : Option String :=
  match value with
  | .str s =>
    let normalized := jsTrim s
    if normalized.length = 0 then none
    else if ENFORCEMENT_TOKENS.contains normalized then some normalized
    else if isValidIsoDate normalized then some normalized
    else none
  | _ => none

/-! ## `supabase/functions/generate-proposal-summary/html.ts` (part_008) -/

/-- Finds the smallest index at which `needle` occurs in `hay`
(JavaScript `String.prototype.indexOf`). -/
def listIndexOf (needle : List Char) : List Char → Option Nat
  | [] => if needle = [] then some 0 else none
  | c :: rest =>
    if needle.isPrefixOf (c :: rest) then some 0
    else (listIndexOf needle rest).map (· + 1)

/-- Embeds `extractBetweenComments` from the summary function's html helpers:
locate the start marker, then the end marker after it; fail when either is
missing or the delimited region is empty, and otherwise return the trimmed
region. -/
def extractBetweenComments (html startMarker endMarker : List Char) : Option (List Char) :=
  match listIndexOf startMarker html with
  | none => none
  | some startIndex =>
    let contentStart := startIndex + startMarker.length
    match listIndexOf endMarker (html.drop contentStart) with
    | none => none
    | some j =>
      if j = 0 then none
      else some (jsTrimList ((html.drop contentStart).take j))

/-- Scans past the first closing angle bracket, returning the remainder. -/
def dropThroughGt : List Char → Option (List Char)
  | [] => none
  | c :: rest => if c = '>' then some rest else dropThroughGt rest

/-- The global regex replacement of html tags by single spaces: each
leftmost occurrence of an opening angle bracket followed (possibly after
non-bracket characters) by a closing angle bracket is replaced by one
space, mirroring the tag-stripping replace in `stripHtmlTags`.  The fuel
starts at the list length and dominates it throughout, so the zero-fuel
branch is never taken. -/
def stripTagsAux : Nat → List Char → List Char
  | _, [] => []
  | 0, cs => cs
  | fuel + 1, c :: rest =>
    if c = '<' then
      match dropThroughGt rest with
      | some after => ' ' :: stripTagsAux fuel after
      | none => c :: rest
    else c :: stripTagsAux fuel rest

/-- Entry point of the tag-stripping replacement. -/
def stripTagsList (cs : List Char) : List Char :=
  stripTagsAux cs.length cs

/-- JavaScript `String.prototype.replaceAll` with a non-empty literal
pattern: replaces every non-overlapping occurrence, scanning left to
right.  (For an empty pattern the source never calls it; here the input is
returned unchanged.)  The fuel starts at the list length and dominates it
throughout, so the zero-fuel branch is never taken. -/
def replaceAllAux (needle repl : List Char) : Nat → List Char → List Char
  | _, [] => []
  | 0, hay => hay
  | fuel + 1, c :: rest =>
    if needle ≠ [] ∧ needle.isPrefixOf (c :: rest) then
      repl ++ replaceAllAux needle repl fuel (rest.drop (needle.length - 1))
    else c :: replaceAllAux needle repl fuel rest

/-- Entry point of the literal global replacement. -/
def replaceAllL (needle repl hay : List Char) : List Char :=
  replaceAllAux needle repl hay.length hay

/-- One pass of the whitespace-run collapse: every maximal run of JS
whitespace becomes a single ASCII space (the global replace of runs of
backslash-s by a space in `collapseWhitespace`).  The single space of a
run is emitted at the run's last character. -/
def collapseRuns : List Char → List Char
  | [] => []
  | [c] => if jsWs c then [' '] else [c]
  | c :: d :: rest =>
    if jsWs c then
      if jsWs d then collapseRuns (d :: rest)
      else ' ' :: collapseRuns (d :: rest)
    else c :: collapseRuns (d :: rest)

/-- Embeds `collapseWhitespace` from the html helpers: collapse whitespace runs to
single spaces, then trim. -/
def collapseWhitespace (value : List Char) : List Char :=
  jsTrimList (collapseRuns value)

/-- Embeds `stripHtmlTags` from the html helpers: remove tags, decode the fixed
entity set in source order, and collapse whitespace. -/
def stripHtmlTags (html : List Char) : List Char :=
  let withoutTags := stripTagsList html
  let e1 := replaceAllL "&nbsp;".data " ".data withoutTags
  let e2 := replaceAllL "&amp;".data "&".data e1
  let e3 := replaceAllL "&lt;".data "<".data e2
  let e4 := replaceAllL "&gt;".data ">".data e3
  let e5 := replaceAllL "&#160;".data " ".data e4
  collapseWhitespace e5

/-- The begin marker of the INNHOLD content region. -/
def INNHOLD_BEGIN : List Char := "<!-- INNHOLD -->".data

/-- The end marker of the INNHOLD content region. -/
def INNHOLD_END : List Char := "<!-- /INNHOLD -->".data

/-- Embeds `extractInnholdSection` from the html helpers. -/
def extractInnholdSection (html : List Char) : Option (List Char) :=
  match extractBetweenComments html INNHOLD_BEGIN INNHOLD_END with
  | none => none
  | some section_ =>
    if section_ = [] then none
    else
      let text := stripHtmlTags section_
      if text.length > 0 then some text else none

/-- Heads of trimmed results are never whitespace. -/
def noLeadWs : List Char → Bool
  | [] => true
  | c :: _ => !jsWs c

/-- Last elements of trimmed results are never whitespace. -/
def noTrailWs (cs : List Char) : Bool :=
  noLeadWs cs.reverse

/-- Two adjacent characters are never both whitespace. -/
def NoTwoWs (a b : Char) : Prop :=
  jsWs a = false ∨ jsWs b = false

instance : DecidableRel NoTwoWs := fun a b => by
  unfold NoTwoWs
  infer_instance

/-! ## `supabase/functions/ingest-stortinget/index.ts` -/

/-- The shape of a rejection value observed by the ingest handler's catch
branch, which reads `error.message` and `error.code` directly. -/
structure IngestError where
  message : Option String
  code : Option String
  deriving DecidableEq, Repr

/-- Outcome of one `law_proposals` upsert attempt (the database and network
are external collaborators, so the outcome is an oracle input). -/
inductive UpsertOutcome where
  | ok
  | err (e : IngestError)
  deriving DecidableEq, Repr

/-- Embeds `FailedItem` from the shared logger module. -/
structure FailedItem where
  stortinget_id : String
  code : String
  message_safe : String
  retryable : Bool
  deriving DecidableEq, Repr

/-- The `IngestionResponse` fields produced by the ingest handler, plus the
HTTP status it is sent with. -/
structure BatchResult where
  status : String
  httpStatus : Nat
  processed : Nat
  succeeded : Nat
  failed : Nat
  failures : List FailedItem
  deriving DecidableEq, Repr

/-- The catch branch of the per-item upsert loop: classifies the rejection
into a `FailedItem` and reports whether the item is additionally counted as
a success (the duplicate-key case). -/
def itemFailure (i : Nat) (sid : Option String) (e : IngestError) : FailedItem × Bool :=
  let itemId := match sid with
    | some s => if s = "" then "unknown_" ++ toString i else s
    | none => "unknown_" ++ toString i
  if e.message = some "timeout" then
    (⟨itemId, "timeout", "Request timeout", true⟩, false)
  else if e.code = some "23505" then
    (⟨itemId, "duplicate_key", "Item already exists (idempotent)", false⟩, true)
  else
    let retryable := match e.message with
      | some m => !strContainsSub m "permission"
      | none => true
    match e.code with
    | some c =>
      if strStartsWith c "23" then (⟨itemId, c, "Data integrity error", false⟩, false)
      else if c = "" then (⟨itemId, "unknown_error", "Failed to upsert item", retryable⟩, false)
      else (⟨itemId, c, "Failed to upsert item", retryable⟩, false)
    | none => (⟨itemId, "unknown_error", "Failed to upsert item", retryable⟩, false)

/-- True when the rejection is classified as a duplicate key (Postgres
error code 23505 and not a timeout). -/
def isDupErr (e : IngestError) : Bool :=
  !(e.message == some "timeout") && (e.code == some "23505")

/-- True when the item's outcome is a duplicate-key rejection. -/
def isDupOutcome (o : UpsertOutcome) : Bool :=
  match o with
  | .ok => false
  | .err e => isDupErr e

/-- True when the loop increments `succeeded` for this outcome. -/
def countsAsSuccess (o : UpsertOutcome) : Bool :=
  match o with
  | .ok => true
  | .err e => isDupErr e

/-- The per-item upsert loop of the ingest handler, starting at position
`i`: accumulates the `succeeded` counter and the `failures` list. -/
def goItems (i : Nat) : List (Option String × UpsertOutcome) → Nat × List FailedItem
  | [] => (0, [])
  | (sid, UpsertOutcome.ok) :: rest =>
    ((goItems (i + 1) rest).1 + 1, (goItems (i + 1) rest).2)
  | (sid, UpsertOutcome.err e) :: rest =>
    ((if (itemFailure i sid e).2 then (goItems (i + 1) rest).1 + 1 else (goItems (i + 1) rest).1),
     (itemFailure i sid e).1 :: (goItems (i + 1) rest).2)

/-- The ingest handler's batch processing and response construction for a
non-empty, well-formed `items` array (each item given with the outcome of
its upsert attempt). -/
def processBatch (items : List (Option String × UpsertOutcome)) : BatchResult :=
  let r := goItems 0 items
  let succeeded := r.1
  let failures := r.2
  let failed := failures.length
  { status := if failed = 0 then "ok" else "partial"
    httpStatus := if failed = 0 then 200 else if succeeded > 0 then 207 else 503
    processed := items.length
    succeeded := succeeded
    failed := failed
    failures := failures }

/-! ## Timer discipline of the two `withTimeout` implementations -/

/-- The JavaScript timer table: the next fresh timer id and the ids of
timers that are pending (scheduled and neither fired nor cleared). -/
structure TimerState where
  nextId : Nat
  live : List Nat
  deriving DecidableEq, Repr

/-- Which contestant of `Promise.race` settles first. -/
inductive RaceWinner where
  | operationFirst
  | timerFirst
  deriving DecidableEq, Repr

/-- Settlement of the wrapped operation's promise. -/
inductive OpResult (α : Type) where
  | resolved (value : α)
  | rejected (message : String)
  deriving DecidableEq, Repr

/-- The race: whichever contestant settles first determines the outcome;
the timer rejects with the message "timeout". -/
def raceOutcome {α : Type} (winner : RaceWinner) (res : OpResult α) : OpResult α :=
  match winner with
  | .operationFirst => res
  | .timerFirst => .rejected "timeout"

/-- Embeds `withTimeout` from the shared logger module: schedules a timer, races
it against the operation, and in a `finally` block clears the timer.  When
the timer itself fired first it is no longer pending and the clear is a
no-op. -/
def withTimeoutShared {α : Type} (st : TimerState) (winner : RaceWinner) (res : OpResult α) :
    OpResult α × TimerState :=
  let tid := st.nextId
  let afterSet : TimerState := ⟨st.nextId + 1, st.live ++ [tid]⟩
  (raceOutcome winner res, ⟨afterSet.nextId, afterSet.live.filter (fun x => !(x == tid))⟩)

/-- The local `withTimeout` of `ingest-stortinget/index.ts`: schedules a
timer and races it against the operation, with no `clearTimeout`.  The
timer only leaves the pending set by firing, so when the operation settles
first the timer stays pending after `withTimeout` returns. -/
def withTimeoutIngest {α : Type} (st : TimerState) (winner : RaceWinner) (res : OpResult α) :
    OpResult α × TimerState :=
  let tid := st.nextId
  let afterSet : TimerState := ⟨st.nextId + 1, st.live ++ [tid]⟩
  match winner with
  | .operationFirst => (res, afterSet)
  | .timerFirst => (.rejected "timeout", ⟨afterSet.nextId, afterSet.live.filter (fun x => !(x == tid))⟩)

/-! ## `supabase/functions/match-and-link-laws/index.ts` and shared logger -/

/-- The runtime values that can reach `classifyMatchError`: an `Error`
instance, a plain object, a string, or anything else (null, numbers, ...).
Mirrors the case analysis of `toError` and `getErrorCode` in the shared
logger module. -/
inductive MatchErrorInput where
  | jsError (message : String) (code : Option String)
  | plainObj (message : Option String) (code : Option String)
  | strVal (s : String)
  | otherVal
  deriving DecidableEq, Repr

/-- Embeds `sanitizeString` from the shared logger: truncate strings longer than
512 characters. -/
def sanitizeString (s : String) : String :=
  if s.length ≤ 512 then s
  else String.mk (s.data.take 512) ++ "...[truncated]"

/-- The message of `toError error` from the shared logger. -/
def toErrorMessage (error : MatchErrorInput) : String :=
  match error with
  | .jsError m _ => m
  | .strVal s => sanitizeString s
  | .plainObj (some m) _ => sanitizeString m
  | .plainObj none _ => "unknown_error"
  | .otherVal => "unknown_error"

/-- Embeds `getErrorCode` from the shared logger: the string `code` property of an
object value, and `undefined` otherwise. -/
def getErrorCode (error : MatchErrorInput) : Option String :=
  match error with
  | .jsError _ c => c
  | .plainObj _ c => c
  | .strVal _ => none
  | .otherVal => none

/-- Embeds `isTimeoutError` from the shared logger. -/
def isTimeoutError (error : MatchErrorInput) : Bool :=
  toErrorMessage error == "timeout"

/-- The classification categories used by `classifyMatchError`. -/
inductive MatchClassCategory where
  | timeoutCat
  | dataIntegrityError
  | infrastructureError
  deriving DecidableEq, Repr

/-- The record returned by `classifyMatchError`. -/
structure MatchErrorClassification where
  code : String
  retryable : Bool
  classification : MatchClassCategory
  deriving DecidableEq, Repr

/-- Embeds `classifyMatchError` from `match-and-link-laws/index.ts`. -/
def classifyMatchError (error : MatchErrorInput) : MatchErrorClassification :=
  if isTimeoutError error then ⟨"timeout", true, .timeoutCat⟩
  else
    match getErrorCode error with
    | some code =>
      if strStartsWith code "23" then ⟨code, false, .dataIntegrityError⟩
      else if code = "42501" then ⟨code, false, .infrastructureError⟩
      else ⟨code, true, .infrastructureError⟩
    | none => ⟨"internal_failure", true, .infrastructureError⟩

/-- The request body of the matcher call.  The `LinkingRequest` payload the
law-matcher worker sends also carries `enforcement_date`; the handler's
`RequestPayload` type destructures only `proposal_id` and `extracted_ids`. -/
structure RequestPayload where
  proposal_id : JsValue
  extracted_ids : JsValue
  enforcement_date : JsValue

/-- A database operation issued by the matcher handler. -/
inductive DbOp where
  | markNewLaw (proposalId : String)
  | fetchDocuments (legacyIds : List String)
  | upsertLinks (entries : List (String × String))
  deriving DecidableEq, Repr

/-- Outcome of the `legal_documents` select. -/
inductive FetchResult where
  | ok (docIds : List String)
  | err (e : MatchErrorInput)
  deriving DecidableEq, Repr

/-- Oracle for the three database calls the matcher handler can make:
the `is_new_law` update, the `legal_documents` select, and the
`proposal_targets` upsert.  `none` means the call succeeded. -/
structure DbOracle where
  updateResult : Option MatchErrorInput
  fetchResult : FetchResult
  upsertResult : Option MatchErrorInput
  deriving DecidableEq, Repr

/-- A response body of the matcher handler. -/
inductive HandlerBody where
  | errBody (error : String) (code : Option String)
  | markedAsNew (proposal_id : String)
  | idsNotFound (proposal_id : String) (searched found : Nat)
  | linked (proposal_id : String) (linked_count : Nat)
  deriving DecidableEq, Repr

/-- The matcher handler's full observable behaviour: HTTP status, body,
request id echo, and the database operations it issued, in order. -/
structure MatchResponse where
  httpStatus : Nat
  body : HandlerBody
  requestId : String
  ops : List DbOp
  deriving DecidableEq, Repr

/-- The `Deno.serve` handler of `match-and-link-laws/index.ts`, for a
request whose JSON body parsed to `payload`: secret check, configuration
check, payload validation, then the empty-ids, no-match, and linking
branches, each consulting the database oracle. -/
def matchAndLinkHandler (authorized configOk : Bool) (requestId : String)
    (payload : RequestPayload) (db : DbOracle) : MatchResponse :=
  if !authorized then ⟨401, .errBody "Unauthorized" (some "invalid_secret"), requestId, []⟩
  else if !configOk then ⟨500, .errBody "Internal error" (some "config_missing"), requestId, []⟩
  else
    let proposalId := match payload.proposal_id with
      | .str s => jsTrim s
      | _ => ""
    match normalizeExtractedIds payload.extracted_ids with
    | none => ⟨400, .errBody "Invalid request payload" (some "invalid_payload"), requestId, []⟩
    | some extractedIds =>
      if proposalId = "" then
        ⟨400, .errBody "Invalid request payload" (some "invalid_payload"), requestId, []⟩
      else
        let cleanIds := (extractedIds.map jsTrim).filter (fun entry => entry.length > 0)
        if cleanIds = [] then
          match db.updateResult with
          | some e =>
            ⟨500, .errBody "Internal error" (some (classifyMatchError e).code), requestId,
              [.markNewLaw proposalId]⟩
          | none =>
            ⟨200, .markedAsNew proposalId, requestId, [.markNewLaw proposalId]⟩
        else
          match db.fetchResult with
          | .err e =>
            ⟨500, .errBody "Internal error" (some (classifyMatchError e).code), requestId,
              [.fetchDocuments cleanIds]⟩
          | .ok docs =>
            if docs = [] then
              ⟨200, .idsNotFound proposalId cleanIds.length 0, requestId,
                [.fetchDocuments cleanIds]⟩
            else
              let links := docs.map (fun d => (proposalId, d))
              match db.upsertResult with
              | some e =>
                ⟨500, .errBody "Internal error" (some (classifyMatchError e).code), requestId,
                  [.fetchDocuments cleanIds, .upsertLinks links]⟩
              | none =>
                ⟨200, .linked proposalId links.length, requestId,
                  [.fetchDocuments cleanIds, .upsertLinks links]⟩

/-! ## Feed poller: new-item detection (stortinget-rss-worker) -/

/-- One item parsed from the polled Stortinget RSS feed. -/
structure FeedEntry where
  source_id : Option String
  title : String
  link : Option String
  published_at : Option String
  deriving DecidableEq, Repr

/-- Modelled from the spec: the identifier a feed entry is compared by, its
detail-page link (falling back to the stable source id); an entry carrying
neither is malformed.  The `stortinget-rss-worker` Rust source is not part
of this repository snapshot, only its README and test descriptions are. -/
def entryIdOf (e : FeedEntry) : Option String :=
  match e.link with
  | some l => some l
  | none => e.source_id

/-- Modelled from the spec: `detect_new` scanning with a present marker —
return entries until the first whose identifier equals the marker,
skipping (excluding, not fatally) malformed entries. -/
def detectNewGo (m : String) : List FeedEntry → List FeedEntry
  | [] => []
  | e :: rest =>
    match entryIdOf e with
    | none => detectNewGo m rest
    | some entryId => if entryId = m then [] else e :: detectNewGo m rest

/-- Modelled from the spec: the New-Item Detector contract
`detect_new(entries, last_seen)` of the `stortinget-rss-worker`, whose Rust
source is absent from this snapshot.  With no marker every well-formed
entry is new; with a marker, scanning stops at the first entry matching the
marker, and malformed entries are excluded without aborting. -/
def detect_new (entries : List FeedEntry) (lastSeen : Option String) : List FeedEntry :=
  match lastSeen with
  | none => entries.filter (fun e => (entryIdOf e).isSome)
  | some m => detectNewGo m entries

/-! ## Theorems -/

theorem contains_tokens_iff (s : String) :
    ENFORCEMENT_TOKENS.contains s = true ↔
      s = "KONGEN_BESTEMMER" ∨ s = "STRAKS" ∨ s = "FLERE_DATOER" ∨
      s = "PARSER_IKKE_FUNNET" ∨ s = "PARSER_FEIL" := by
  simp only [ENFORCEMENT_TOKENS, List.contains_cons, List.contains_nil, Bool.or_eq_true,
    beq_iff_eq]
  tauto

theorem isValidIsoDate_length {s : String} (h : isValidIsoDate s = true) : s.length = 10 := by
  unfold isValidIsoDate at h
  split at h
  · rename_i heq
    show s.data.length = 10
    rw [heq]
    rfl
  · exact absurd h (by simp)

theorem token_length_pos {s : String} (h : ENFORCEMENT_TOKENS.contains s = true) :
    s.length ≠ 0 := by
  rcases (contains_tokens_iff s).mp h with rfl | rfl | rfl | rfl | rfl <;> decide

theorem isValidIsoDate_eq (y1 y2 y3 y4 m1 m2 d1 d2 : Char) :
    isValidIsoDate (String.mk [y1, y2, y3, y4, '-', m1, m2, '-', d1, d2]) =
      (isAsciiDigit y1 && isAsciiDigit y2 && isAsciiDigit y3 && isAsciiDigit y4 &&
       isAsciiDigit m1 && isAsciiDigit m2 && isAsciiDigit d1 && isAsciiDigit d2 &&
       (decide (1 ≤ digitVal m1 * 10 + digitVal m2) &&
        decide (digitVal m1 * 10 + digitVal m2 ≤ 12) &&
        decide (1 ≤ digitVal d1 * 10 + digitVal d2) &&
        decide (digitVal d1 * 10 + digitVal d2 ≤
          daysInMonth (yearOf y1 y2 y3 y4) (digitVal m1 * 10 + digitVal m2)))) := by
  unfold isValidIsoDate
  simp

/-- Claim C1: `normalizeEnforcementDate` returns the trimmed input exactly
when the trimmed input is one of the five sentinel tokens or a string
denoting a real `YYYY-MM-DD` calendar date (February 29 accepted precisely
in leap years, February 30 and month 13 always rejected); every other
value yields `none`; and no string is simultaneously a sentinel and a
valid date, so each accepted classification is exactly one of the two. -/
theorem normalizeEnforcementDate_spec :
    (∀ (v : JsValue) (s : String),
      normalizeEnforcementDate v = some s ↔
        ∃ t, v = JsValue.str t ∧ s = jsTrim t ∧
          (ENFORCEMENT_TOKENS.contains s = true ∨ isValidIsoDate s = true)) ∧
    (∀ s : String, ¬(ENFORCEMENT_TOKENS.contains s = true ∧ isValidIsoDate s = true)) ∧
    (∀ y1 y2 y3 y4 : Char,
      isAsciiDigit y1 = true → isAsciiDigit y2 = true →
      isAsciiDigit y3 = true → isAsciiDigit y4 = true →
      (isValidIsoDate (String.mk [y1, y2, y3, y4, '-', '0', '2', '-', '2', '9']) = true ↔
        isLeapYear (yearOf y1 y2 y3 y4) = true)) ∧
    (∀ y1 y2 y3 y4 : Char,
      isValidIsoDate (String.mk [y1, y2, y3, y4, '-', '0', '2', '-', '3', '0']) = false) ∧
    (∀ y1 y2 y3 y4 d1 d2 : Char,
      isValidIsoDate (String.mk [y1, y2, y3, y4, '-', '1', '3', '-', d1, d2]) = false) := by
  refine ⟨?_, ?_, ?_, ?_, ?_⟩
  · intro v s
    constructor
    · intro h
      cases v with
      | str t =>
        refine ⟨t, rfl, ?_⟩
        simp only [normalizeEnforcementDate] at h
        split at h
        · exact absurd h (by simp)
        · split at h
          · exact ⟨(Option.some.injEq _ _ ▸ h).symm ▸ rfl, by
              rename_i hc
              exact Or.inl ((Option.some.injEq _ _ ▸ h) ▸ hc)⟩
          · split at h
            · exact ⟨(Option.some.injEq _ _ ▸ h).symm ▸ rfl, by
                rename_i hv
                exact Or.inr ((Option.some.injEq _ _ ▸ h) ▸ hv)⟩
            · exact absurd h (by simp)
      | num n => exact absurd h (by simp [normalizeEnforcementDate])
      | bool b => exact absurd h (by simp [normalizeEnforcementDate])
      | null => exact absurd h (by simp [normalizeEnforcementDate])
      | undef => exact absurd h (by simp [normalizeEnforcementDate])
      | arr es => exact absurd h (by simp [normalizeEnforcementDate])
      | obj => exact absurd h (by simp [normalizeEnforcementDate])
    · rintro ⟨t, rfl, rfl, hor⟩
      have hlen : ¬(jsTrim t).length = 0 := by
        rcases hor with hc | hv
        · exact token_length_pos hc
        · rw [isValidIsoDate_length hv]; decide
      simp only [normalizeEnforcementDate, if_neg hlen]
      rcases hor with hc | hv
      · rw [if_pos hc]
      · by_cases hc : ENFORCEMENT_TOKENS.contains (jsTrim t) = true
        · rw [if_pos hc]
        · rw [if_neg hc, if_pos hv]
  · rintro s ⟨hc, hv⟩
    rcases (contains_tokens_iff s).mp hc with rfl | rfl | rfl | rfl | rfl <;>
      exact absurd hv (by decide)
  · intro y1 y2 y3 y4 h1 h2 h3 h4
    rw [isValidIsoDate_eq]
    have e0 : digitVal '0' = 0 := rfl
    have e2 : digitVal '2' = 2 := rfl
    have e9 : digitVal '9' = 9 := rfl
    have a0 : isAsciiDigit '0' = true := rfl
    have a2 : isAsciiDigit '2' = true := rfl
    have a9 : isAsciiDigit '9' = true := rfl
    simp only [h1, h2, h3, h4, e0, e2, e9, a0, a2, a9, Bool.true_and, daysInMonth]
    norm_num
    by_cases hl : isLeapYear (yearOf y1 y2 y3 y4) = true
    · simp [hl]
    · simp only [Bool.not_eq_true] at hl
      simp [hl]
  · intro y1 y2 y3 y4
    rw [isValidIsoDate_eq]
    have e0 : digitVal '0' = 0 := rfl
    have e2 : digitVal '2' = 2 := rfl
    have e3 : digitVal '3' = 3 := rfl
    have a0 : isAsciiDigit '0' = true := rfl
    have a2 : isAsciiDigit '2' = true := rfl
    have a3 : isAsciiDigit '3' = true := rfl
    simp only [e0, e2, e3, a0, a2, a3, daysInMonth]
    by_cases hl : isLeapYear (yearOf y1 y2 y3 y4) = true
    · simp [hl]
    · simp only [Bool.not_eq_true] at hl
      simp [hl]
  · intro y1 y2 y3 y4 d1 d2
    rw [isValidIsoDate_eq]
    have e1 : digitVal '1' = 1 := rfl
    have e3 : digitVal '3' = 3 := rfl
    have a1 : isAsciiDigit '1' = true := rfl
    have a3 : isAsciiDigit '3' = true := rfl
    simp only [e1, e3, a1, a3]
    simp

/-- Witness for claim C1: the classification evaluated at concrete inputs
through the theorem itself. -/
theorem normalizeEnforcementDate_spec_witness :
    normalizeEnforcementDate (JsValue.str " STRAKS ") = some "STRAKS" ∧
    isValidIsoDate (String.mk ['2', '0', '2', '4', '-', '0', '2', '-', '2', '9']) = true ∧
    isValidIsoDate (String.mk ['2', '0', '2', '3', '-', '0', '2', '-', '3', '0']) = false ∧
    isValidIsoDate (String.mk ['2', '0', '2', '7', '-', '1', '3', '-', '0', '1']) = false := by
  refine ⟨?_, ?_, ?_, ?_⟩
  · exact (normalizeEnforcementDate_spec.1 (JsValue.str " STRAKS ") "STRAKS").mpr
      ⟨" STRAKS ", rfl, by decide, Or.inl (by decide)⟩
  · exact (normalizeEnforcementDate_spec.2.2.1 '2' '0' '2' '4'
      (by decide) (by decide) (by decide) (by decide)).mpr (by decide)
  · exact normalizeEnforcementDate_spec.2.2.2.1 '2' '0' '2' '3'
  · exact normalizeEnforcementDate_spec.2.2.2.2 '2' '0' '2' '7' '0' '1'

/-- Claim C10: `normalizeExtractedIds` keeps exactly the string elements of
an array in order, splits a string on commas trimming each segment, and
yields `null` for every other type; the matcher handler answers HTTP 400
with the invalid-payload body whenever `extracted_ids` normalizes to
`null`. -/
theorem normalizeExtractedIds_spec :
    (∀ elems : List JsValue,
      normalizeExtractedIds (JsValue.arr elems) =
        some (elems.filterMap fun item =>
          match item with
          | .str s => some s
          | _ => none)) ∧
    (∀ s : String,
      normalizeExtractedIds (JsValue.str s) =
        some ((splitComma s.data).map fun entry => String.mk (jsTrimList entry))) ∧
    (∀ n : Int, normalizeExtractedIds (JsValue.num n) = none) ∧
    (∀ b : Bool, normalizeExtractedIds (JsValue.bool b) = none) ∧
    normalizeExtractedIds JsValue.null = none ∧
    normalizeExtractedIds JsValue.undef = none ∧
    normalizeExtractedIds JsValue.obj = none ∧
    (∀ (requestId : String) (payload : RequestPayload) (db : DbOracle),
      normalizeExtractedIds payload.extracted_ids = none →
      matchAndLinkHandler true true requestId payload db =
        ⟨400, .errBody "Invalid request payload" (some "invalid_payload"), requestId, []⟩) := by
  refine ⟨fun _ => rfl, fun _ => rfl, fun _ => rfl, fun _ => rfl, rfl, rfl, rfl, ?_⟩
  intro requestId payload db h
  simp only [matchAndLinkHandler, h, Bool.not_true, Bool.false_eq_true, if_false]

/-- Witness for claim C10: normalization and the 400 rejection evaluated at
concrete inputs through the theorem itself. -/
theorem normalizeExtractedIds_spec_witness :
    normalizeExtractedIds (JsValue.arr [.str "LOV-1", .num 7, .str "LOV-1"]) =
      some ["LOV-1", "LOV-1"] ∧
    normalizeExtractedIds (JsValue.str " LOV-1 , LOV-2") = some ["LOV-1", "LOV-2"] ∧
    matchAndLinkHandler true true "rid"
        ⟨JsValue.str "p1", JsValue.num 3, JsValue.null⟩ ⟨none, .ok [], none⟩ =
      ⟨400, .errBody "Invalid request payload" (some "invalid_payload"), "rid", []⟩ := by
  refine ⟨?_, ?_, ?_⟩
  · rw [normalizeExtractedIds_spec.1]
    rfl
  · rw [normalizeExtractedIds_spec.2.1]
    decide
  · exact normalizeExtractedIds_spec.2.2.2.2.2.2.2 "rid"
      ⟨JsValue.str "p1", JsValue.num 3, JsValue.null⟩ ⟨none, .ok [], none⟩ rfl

/-- Claim C4: `classifyMatchError` is a pure total classification, with the
cases applied in the source's order: timeout errors are retryable with
code "timeout"; otherwise error codes starting with "23" are non-retryable
data-integrity errors; code "42501" is a non-retryable infrastructure
error; every other error is a retryable infrastructure error carrying the
original code, or "internal_failure" when the error has no code. -/
theorem classifyMatchError_spec (error : MatchErrorInput) :
    (isTimeoutError error = true →
      classifyMatchError error = ⟨"timeout", true, .timeoutCat⟩) ∧
    (isTimeoutError error = false →
      ∀ c, getErrorCode error = some c → strStartsWith c "23" = true →
        classifyMatchError error = ⟨c, false, .dataIntegrityError⟩) ∧
    (isTimeoutError error = false → getErrorCode error = some "42501" →
      classifyMatchError error = ⟨"42501", false, .infrastructureError⟩) ∧
    (isTimeoutError error = false →
      ∀ c, getErrorCode error = some c → strStartsWith c "23" = false → c ≠ "42501" →
        classifyMatchError error = ⟨c, true, .infrastructureError⟩) ∧
    (isTimeoutError error = false → getErrorCode error = none →
      classifyMatchError error = ⟨"internal_failure", true, .infrastructureError⟩) := by
  refine ⟨?_, ?_, ?_, ?_, ?_⟩
  · intro ht
    simp [classifyMatchError, ht]
  · intro ht c hc hpre
    simp only [classifyMatchError, ht, Bool.false_eq_true, if_false, hc, hpre, if_true]
  · intro ht hc
    have hpre : strStartsWith "42501" "23" = false := by decide
    simp only [classifyMatchError, ht, Bool.false_eq_true, if_false, hc, hpre, if_true]
  · intro ht c hc hpre hne
    simp only [classifyMatchError, ht, Bool.false_eq_true, if_false, hc, hpre,
      if_neg hne]
  · intro ht hc
    simp only [classifyMatchError, ht, Bool.false_eq_true, if_false, hc]

/-- Witness for claim C4: all five classification cases evaluated at
concrete error values through the theorem itself. -/
theorem classifyMatchError_spec_witness :
    classifyMatchError (.jsError "timeout" (some "23505")) = ⟨"timeout", true, .timeoutCat⟩ ∧
    classifyMatchError (.plainObj (some "x") (some "23514")) =
      ⟨"23514", false, .dataIntegrityError⟩ ∧
    classifyMatchError (.plainObj none (some "42501")) =
      ⟨"42501", false, .infrastructureError⟩ ∧
    classifyMatchError (.jsError "boom" (some "PGRST301")) =
      ⟨"PGRST301", true, .infrastructureError⟩ ∧
    classifyMatchError .otherVal = ⟨"internal_failure", true, .infrastructureError⟩ := by
  refine ⟨?_, ?_, ?_, ?_, ?_⟩
  · exact (classifyMatchError_spec (.jsError "timeout" (some "23505"))).1 (by decide)
  · exact (classifyMatchError_spec (.plainObj (some "x") (some "23514"))).2.1
      (by decide) "23514" rfl (by decide)
  · exact (classifyMatchError_spec (.plainObj none (some "42501"))).2.2.1 (by decide) rfl
  · exact (classifyMatchError_spec (.jsError "boom" (some "PGRST301"))).2.2.2.1
      (by decide) "PGRST301" rfl (by decide) (by decide)
  · exact (classifyMatchError_spec .otherVal).2.2.2.2 (by decide) rfl

/-- Claim C9: the matcher handler's observable behaviour — database
operations issued and response returned — depends only on the
`proposal_id` and `extracted_ids` fields of the body (given identical
headers and environment); any other body field, such as the
`enforcement_date` the linking payload carries, is ignored. -/
theorem matchAndLinkHandler_ignores_other_fields
    (authorized configOk : Bool) (requestId : String)
    (p1 p2 : RequestPayload) (db : DbOracle)
    (hpid : p1.proposal_id = p2.proposal_id)
    (hids : p1.extracted_ids = p2.extracted_ids) :
    matchAndLinkHandler authorized configOk requestId p1 db =
      matchAndLinkHandler authorized configOk requestId p2 db := by
  simp only [matchAndLinkHandler, hpid, hids]

/-- Witness for claim C9: two concrete requests differing only in
`enforcement_date` produce identical handler behaviour, through the
theorem itself. -/
theorem matchAndLinkHandler_ignores_other_fields_witness :
    matchAndLinkHandler true true "rid"
        ⟨JsValue.str "p1", JsValue.arr [JsValue.str "LOV-1"], JsValue.str "2027-01-01"⟩
        ⟨none, .ok ["d1"], none⟩ =
      matchAndLinkHandler true true "rid"
        ⟨JsValue.str "p1", JsValue.arr [JsValue.str "LOV-1"], JsValue.str "KONGEN_BESTEMMER"⟩
        ⟨none, .ok ["d1"], none⟩ :=
  matchAndLinkHandler_ignores_other_fields true true "rid" _ _ _ rfl rfl

/-- Claim C6: for a well-formed matcher request, when the normalized ids
clean to the empty set the handler marks the proposal as a new law and
answers HTTP 200 with status `marked_as_new` (given the update succeeds),
and when the ids match no stored legal document it answers HTTP 200 with
status `ids_not_found_in_db` — classified outcomes, not error responses. -/
theorem matchAndLinkHandler_expected_outcomes
    (requestId : String) (payload : RequestPayload) (db : DbOracle)
    (pid : String) (hpid : payload.proposal_id = JsValue.str pid)
    (hne : jsTrim pid ≠ "")
    (ids : List String)
    (hids : normalizeExtractedIds payload.extracted_ids = some ids) :
    (((ids.map jsTrim).filter (fun entry => entry.length > 0)) = [] →
      db.updateResult = none →
      matchAndLinkHandler true true requestId payload db =
        ⟨200, .markedAsNew (jsTrim pid), requestId, [.markNewLaw (jsTrim pid)]⟩) ∧
    (((ids.map jsTrim).filter (fun entry => entry.length > 0)) ≠ [] →
      db.fetchResult = .ok [] →
      matchAndLinkHandler true true requestId payload db =
        ⟨200,
         .idsNotFound (jsTrim pid)
           ((ids.map jsTrim).filter (fun entry => entry.length > 0)).length 0,
         requestId,
         [.fetchDocuments ((ids.map jsTrim).filter (fun entry => entry.length > 0))]⟩) := by
  constructor
  · intro hclean hupd
    simp only [matchAndLinkHandler, hpid, hids, Bool.not_true, Bool.false_eq_true, if_false,
      if_neg hne, hclean, if_pos rfl, hupd]
    rw [if_pos trivial]
  · intro hclean hfetch
    simp only [matchAndLinkHandler, hpid, hids, Bool.not_true, Bool.false_eq_true, if_false,
      if_neg hne, if_neg hclean, hfetch]
    rw [if_pos trivial]

/-- Witness for claim C6: both expected-outcome branches evaluated at
concrete requests through the theorem itself. -/
theorem matchAndLinkHandler_expected_outcomes_witness :
    matchAndLinkHandler true true "rid"
        ⟨JsValue.str "p1", JsValue.str " , ", JsValue.null⟩ ⟨none, .ok [], none⟩ =
      ⟨200, .markedAsNew "p1", "rid", [.markNewLaw "p1"]⟩ ∧
    matchAndLinkHandler true true "rid"
        ⟨JsValue.str "p1", JsValue.arr [JsValue.str "LOV-1999-07-16-69"], JsValue.null⟩
        ⟨none, .ok [], none⟩ =
      ⟨200, .idsNotFound "p1" 1 0, "rid", [.fetchDocuments ["LOV-1999-07-16-69"]]⟩ := by
  constructor
  · have h := (matchAndLinkHandler_expected_outcomes "rid"
      ⟨JsValue.str "p1", JsValue.str " , ", JsValue.null⟩ ⟨none, .ok [], none⟩
      "p1" rfl (by decide) ["", ""] (by decide)).1 (by decide) rfl
    have e : jsTrim "p1" = "p1" := by decide
    rw [e] at h
    exact h
  · have h := (matchAndLinkHandler_expected_outcomes "rid"
      ⟨JsValue.str "p1", JsValue.arr [JsValue.str "LOV-1999-07-16-69"], JsValue.null⟩
      ⟨none, .ok [], none⟩
      "p1" rfl (by decide) ["LOV-1999-07-16-69"] rfl).2 (by decide) rfl
    have e : jsTrim "p1" = "p1" := by decide
    have e2 : (["LOV-1999-07-16-69"].map jsTrim).filter (fun entry => entry.length > 0) =
        ["LOV-1999-07-16-69"] := by decide
    rw [e, e2] at h
    exact h

theorem itemFailure_snd (i : Nat) (sid : Option String) (e : IngestError) :
    (itemFailure i sid e).2 = isDupErr e := by
  unfold itemFailure isDupErr
  by_cases hm : e.message = some "timeout"
  · simp [hm]
  · by_cases hc : e.code = some "23505"
    · simp [hm, hc]
    · have hm' : (e.message == some "timeout") = false := by
        simpa using hm
      have hc' : (e.code == some "23505") = false := by
        simpa using hc
      simp only [if_neg hm, if_neg hc, hm', hc', Bool.not_false, Bool.true_and]
      cases e.code with
      | none => simp
      | some c =>
        repeat first | rfl | split

theorem goItems_spec (items : List (Option String × UpsertOutcome)) : ∀ i : Nat,
    (goItems i items).1 = items.countP (fun p => countsAsSuccess p.2) ∧
    (goItems i items).2 = (items.enumFrom i).filterMap (fun p =>
      match p.2.2 with
      | UpsertOutcome.ok => none
      | UpsertOutcome.err e => some (itemFailure p.1 p.2.1 e).1) := by
  induction items with
  | nil => intro i; simp [goItems]
  | cons hd tl ih =>
    intro i
    obtain ⟨sid, o⟩ := hd
    have h1 := (ih (i + 1)).1
    have h2 := (ih (i + 1)).2
    cases o with
    | ok =>
      constructor
      · simp only [goItems, h1, List.countP_cons]
        rfl
      · simp only [goItems, h2, List.enumFrom_cons, List.filterMap_cons]
    | err e =>
      constructor
      · simp only [goItems, h1, List.countP_cons, itemFailure_snd]
        have : countsAsSuccess (sid, UpsertOutcome.err e).2 = isDupErr e := rfl
        rw [this]
        by_cases hd : isDupErr e = true
        · simp [hd]
        · simp only [Bool.not_eq_true] at hd
          simp [hd]
      · simp only [goItems, h2, List.enumFrom_cons, List.filterMap_cons]

theorem goItems_counts (items : List (Option String × UpsertOutcome)) : ∀ i : Nat,
    (goItems i items).1 + (goItems i items).2.length =
      items.length + items.countP (fun p => isDupOutcome p.2) := by
  induction items with
  | nil => intro i; simp [goItems]
  | cons hd tl ih =>
    intro i
    obtain ⟨sid, o⟩ := hd
    have h := ih (i + 1)
    cases o with
    | ok =>
      simp only [goItems, List.countP_cons, List.length_cons]
      have : isDupOutcome (sid, UpsertOutcome.ok).2 = false := rfl
      rw [this]
      simp only [Bool.false_eq_true, if_false]
      omega
    | err e =>
      simp only [goItems, List.countP_cons, List.length_cons, itemFailure_snd]
      have : isDupOutcome (sid, UpsertOutcome.err e).2 = isDupErr e := rfl
      rw [this]
      by_cases hd : isDupErr e = true
      · simp only [hd, if_pos, List.length_cons]
        omega
      · simp only [Bool.not_eq_true] at hd
        simp only [hd, Bool.false_eq_true, if_false, List.length_cons]
        omega

/-- Counterexample to claim C2 as stated: a single-item batch whose upsert
rejects with an ordinary error yields response status "partial" although
zero items succeeded, refuting the claim's "status partial ... while at
least one item succeeded". -/
theorem ingest_partial_without_success_cex :
    (processBatch [(some "A", UpsertOutcome.err ⟨some "boom", some "XX"⟩)]).status = "partial" ∧
    (processBatch [(some "A", UpsertOutcome.err ⟨some "boom", some "XX"⟩)]).succeeded = 0 ∧
    (processBatch [(some "A", UpsertOutcome.err ⟨some "boom", some "XX"⟩)]).failures ≠ [] := by
  refine ⟨rfl, rfl, ?_⟩
  decide

/-- Claim C2 (amended): a failure upserting one item never prevents the
remaining items from being attempted — the failures list is exactly the
pointwise classification of the failing items, each carrying a code, a
human-safe message, and a retryable flag; `processed` equals the batch
length; the response status is "ok" iff the failures list is empty and
"partial" otherwise, regardless of whether any item succeeded; the HTTP
status distinguishes 207 (some item succeeded) from 503 (none did). -/
theorem ingest_batch_spec (items : List (Option String × UpsertOutcome)) :
    (processBatch items).processed = items.length ∧
    (processBatch items).failed = (processBatch items).failures.length ∧
    ((processBatch items).status = "ok" ↔ (processBatch items).failures = []) ∧
    ((processBatch items).failures ≠ [] → (processBatch items).status = "partial") ∧
    ((processBatch items).failures ≠ [] →
      (processBatch items).httpStatus =
        if (processBatch items).succeeded > 0 then 207 else 503) ∧
    (processBatch items).failures =
      (items.enumFrom 0).filterMap (fun p =>
        match p.2.2 with
        | UpsertOutcome.ok => none
        | UpsertOutcome.err e => some (itemFailure p.1 p.2.1 e).1) ∧
    (processBatch items).succeeded = items.countP (fun p => countsAsSuccess p.2) := by
  have h1 := (goItems_spec items 0).1
  have h2 := (goItems_spec items 0).2
  have e1 : (processBatch items).failures = (goItems 0 items).2 := rfl
  have e2 : (processBatch items).succeeded = (goItems 0 items).1 := rfl
  have e3 : (processBatch items).status =
      (if (goItems 0 items).2.length = 0 then "ok" else "partial") := rfl
  have e4 : (processBatch items).httpStatus =
      (if (goItems 0 items).2.length = 0 then 200
       else if (goItems 0 items).1 > 0 then 207 else 503) := rfl
  refine ⟨rfl, rfl, ?_, ?_, ?_, ?_, ?_⟩
  · rw [e3, e1]
    by_cases hl : (goItems 0 items).2 = []
    · rw [hl]
      simp
    · rw [if_neg (by simpa using hl)]
      constructor
      · intro hcon
        exact absurd hcon (by decide)
      · intro hcon
        exact absurd hcon hl
  · intro h
    rw [e1] at h
    rw [e3, if_neg (by simpa using h)]
  · intro h
    rw [e1] at h
    rw [e4, e2, if_neg (by simpa using h)]
  · rw [e1, h2]
  · rw [e2, h1]

/-- Witness for claim C2 (amended): a two-item batch with one failure,
evaluated through the theorem itself. -/
theorem ingest_batch_spec_witness :
    (processBatch [(some "A", UpsertOutcome.ok),
                   (none, UpsertOutcome.err ⟨some "timeout", none⟩)]).status = "partial" ∧
    (processBatch [(some "A", UpsertOutcome.ok),
                   (none, UpsertOutcome.err ⟨some "timeout", none⟩)]).httpStatus = 207 ∧
    (processBatch [(some "A", UpsertOutcome.ok),
                   (none, UpsertOutcome.err ⟨some "timeout", none⟩)]).processed = 2 ∧
    (processBatch [(some "A", UpsertOutcome.ok),
                   (none, UpsertOutcome.err ⟨some "timeout", none⟩)]).failures =
      [⟨"unknown_1", "timeout", "Request timeout", true⟩] := by
  have h := ingest_batch_spec
    [(some "A", UpsertOutcome.ok), (none, UpsertOutcome.err ⟨some "timeout", none⟩)]
  refine ⟨?_, ?_, h.1, ?_⟩
  · exact h.2.2.2.1 (by decide)
  · rw [h.2.2.2.2.1 (by decide)]
    decide
  · rw [h.2.2.2.2.2.1]
    decide

/-- Claim C8: a duplicate-key rejection (Postgres 23505) is counted both in
`succeeded` and in `failures`, so `succeeded + failed` exceeds `processed`
for any batch containing one; a non-empty batch consisting entirely of
duplicate-key rejections reports status "partial" with HTTP 207, with
`succeeded` and `failed` both equal to the batch length. -/
theorem ingest_duplicate_counting (items : List (Option String × UpsertOutcome)) :
    ((∃ p ∈ items, isDupOutcome p.2 = true) →
      (processBatch items).succeeded + (processBatch items).failed >
        (processBatch items).processed) ∧
    (items ≠ [] → (∀ p ∈ items, isDupOutcome p.2 = true) →
      (processBatch items).status = "partial" ∧
      (processBatch items).httpStatus = 207 ∧
      (processBatch items).succeeded = items.length ∧
      (processBatch items).failed = items.length) := by
  have hc := goItems_counts items 0
  have hs := (goItems_spec items 0).1
  have e1 : (processBatch items).failed = (goItems 0 items).2.length := rfl
  have e2 : (processBatch items).succeeded = (goItems 0 items).1 := rfl
  have e3 : (processBatch items).status =
      (if (goItems 0 items).2.length = 0 then "ok" else "partial") := rfl
  have e4 : (processBatch items).httpStatus =
      (if (goItems 0 items).2.length = 0 then 200
       else if (goItems 0 items).1 > 0 then 207 else 503) := rfl
  have e5 : (processBatch items).processed = items.length := rfl
  constructor
  · intro hex
    have hpos : 0 < items.countP (fun p => isDupOutcome p.2) :=
      List.countP_pos_iff.mpr hex
    rw [e1, e2, e5]
    omega
  · intro hne hall
    have hcount : items.countP (fun p => isDupOutcome p.2) = items.length :=
      List.countP_eq_length.mpr hall
    have hsucc : items.countP (fun p => countsAsSuccess p.2) = items.length := by
      refine List.countP_eq_length.mpr ?_
      intro p hp
      have := hall p hp
      obtain ⟨sid, o⟩ := p
      cases o with
      | ok => rfl
      | err e => exact this
    have hlen : 0 < items.length := List.length_pos.mpr hne
    have hsucc' : (goItems 0 items).1 = items.length := by rw [hs, hsucc]
    have hfail : (goItems 0 items).2.length = items.length := by omega
    refine ⟨?_, ?_, by rw [e2, hsucc'], by rw [e1, hfail]⟩
    · rw [e3, if_neg (by omega)]
    · rw [e4, if_neg (by omega), if_pos (by omega)]

/-- Witness for claim C8: a batch of two duplicate-key rejections evaluated
through the theorem itself. -/
theorem ingest_duplicate_counting_witness :
    (processBatch [(some "A", UpsertOutcome.err ⟨none, some "23505"⟩),
                   (some "B", UpsertOutcome.err ⟨none, some "23505"⟩)]).succeeded +
      (processBatch [(some "A", UpsertOutcome.err ⟨none, some "23505"⟩),
                     (some "B", UpsertOutcome.err ⟨none, some "23505"⟩)]).failed >
      (processBatch [(some "A", UpsertOutcome.err ⟨none, some "23505"⟩),
                     (some "B", UpsertOutcome.err ⟨none, some "23505"⟩)]).processed ∧
    (processBatch [(some "A", UpsertOutcome.err ⟨none, some "23505"⟩),
                   (some "B", UpsertOutcome.err ⟨none, some "23505"⟩)]).status = "partial" ∧
    (processBatch [(some "A", UpsertOutcome.err ⟨none, some "23505"⟩),
                   (some "B", UpsertOutcome.err ⟨none, some "23505"⟩)]).httpStatus = 207 := by
  have h := ingest_duplicate_counting
    [(some "A", UpsertOutcome.err ⟨none, some "23505"⟩),
     (some "B", UpsertOutcome.err ⟨none, some "23505"⟩)]
  have h2 := h.2 (by decide) (by decide)
  exact ⟨h.1 ⟨_, List.mem_cons_self _ _, by decide⟩, h2.1, h2.2.1⟩

/-- Claim C5: with a present marker, `detect_new` returns the prefix of
entries scanned before the first entry whose identifier equals the marker,
with malformed entries (no link or id) excluded but not fatal; when the
marker does not occur in the batch, every well-formed entry is returned;
an empty feed yields an empty result. -/
theorem detect_new_spec (entries : List FeedEntry) (m : String) :
    detect_new entries (some m) =
      (entries.takeWhile (fun e => !(entryIdOf e == some m))).filter
        (fun e => (entryIdOf e).isSome) ∧
    ((∀ e ∈ entries, entryIdOf e ≠ some m) →
      detect_new entries (some m) = entries.filter (fun e => (entryIdOf e).isSome)) ∧
    detect_new [] (some m) = [] := by
  refine ⟨?_, ?_, rfl⟩
  · show detectNewGo m entries = _
    induction entries with
    | nil => rfl
    | cons e rest ih =>
      cases hid : entryIdOf e with
      | none =>
        simp only [detectNewGo, hid, List.takeWhile_cons, List.filter_cons]
        simp [hid, ih]
      | some entryId =>
        by_cases heq : entryId = m
        · subst heq
          simp [detectNewGo, hid, List.takeWhile_cons]
        · simp only [detectNewGo, hid, if_neg heq, List.takeWhile_cons, hid]
          have hbne : (some entryId == some m) = false := by
            simpa using heq
          simp only [hbne, Bool.not_false, if_pos]
          rw [List.filter_cons]
          simp [hid, ih]
  · intro hall
    show detectNewGo m entries = _
    induction entries with
    | nil => rfl
    | cons e rest ih =>
      have he := hall e (List.mem_cons_self _ _)
      have hrest : ∀ x ∈ rest, entryIdOf x ≠ some m :=
        fun x hx => hall x (List.mem_cons_of_mem _ hx)
      cases hid : entryIdOf e with
      | none =>
        simp only [detectNewGo, hid, List.filter_cons]
        simp [hid, ih hrest]
      | some entryId =>
        have hne : entryId ≠ m := by
          intro hcon
          exact he (by rw [hid, hcon])
        simp only [detectNewGo, hid, if_neg hne, List.filter_cons]
        simp [hid, ih hrest]

/-- Witness for claim C5: a concrete feed with a malformed entry and a
marker in third position, evaluated through the theorem itself. -/
theorem detect_new_spec_witness :
    detect_new
        [⟨some "s1", "t1", some "l1", none⟩, ⟨none, "bad", none, none⟩,
         ⟨some "s3", "t3", some "l3", none⟩, ⟨some "s4", "t4", some "l4", none⟩]
        (some "l3") =
      [⟨some "s1", "t1", some "l1", none⟩] ∧
    detect_new
        [⟨some "s1", "t1", some "l1", none⟩, ⟨none, "bad", none, none⟩]
        (some "zz") =
      [⟨some "s1", "t1", some "l1", none⟩] := by
  constructor
  · rw [(detect_new_spec
      [⟨some "s1", "t1", some "l1", none⟩, ⟨none, "bad", none, none⟩,
       ⟨some "s3", "t3", some "l3", none⟩, ⟨some "s4", "t4", some "l4", none⟩] "l3").1]
    decide
  · rw [(detect_new_spec
      [⟨some "s1", "t1", some "l1", none⟩, ⟨none, "bad", none, none⟩] "zz").2.1
      (by decide)]
    decide

/-- Counterexample to claim C7 as stated: the local `withTimeout` of
`ingest-stortinget/index.ts` never clears its timer, so after the wrapped
operation settles first the timer is still pending — a live timer is left
behind at that call site, refuting "the pending timer is always cancelled
... for every withTimeout call site". -/
theorem withTimeoutIngest_leaves_timer_cex :
    (withTimeoutIngest (⟨0, []⟩ : TimerState) RaceWinner.operationFirst
        (OpResult.resolved (0 : Nat))).1 = OpResult.resolved 0 ∧
    (withTimeoutIngest (⟨0, []⟩ : TimerState) RaceWinner.operationFirst
        (OpResult.resolved (0 : Nat))).2.live = [0] ∧
    ([0] : List Nat) ≠ [] := by
  refine ⟨rfl, rfl, by decide⟩

/-- Claim C7 (amended): both `withTimeout` implementations race the
operation against a timer and whichever settles first determines the
outcome.  The shared-logger `withTimeout` always clears the timer in a
`finally`, leaving the pending-timer set unchanged; the local
`withTimeout` of `ingest-stortinget` performs no `clearTimeout`, so when
the operation settles first its timer remains pending after the call. -/
theorem withTimeout_timer_discipline {α : Type} (st : TimerState) (winner : RaceWinner)
    (res : OpResult α) (hfresh : st.nextId ∉ st.live) :
    (withTimeoutShared st winner res).1 = raceOutcome winner res ∧
    (withTimeoutShared st winner res).2.live = st.live ∧
    (withTimeoutIngest st winner res).1 = raceOutcome winner res ∧
    (withTimeoutIngest st winner res).2.live =
      (if winner = RaceWinner.operationFirst then st.live ++ [st.nextId] else st.live) := by
  have hfilter : st.live.filter (fun x => !(x == st.nextId)) = st.live := by
    refine List.filter_eq_self.mpr ?_
    intro a ha
    have hne : a ≠ st.nextId := fun hcon => hfresh (hcon ▸ ha)
    simp [hne]
  refine ⟨rfl, ?_, ?_, ?_⟩
  · show ((st.live ++ [st.nextId]).filter (fun x => !(x == st.nextId))) = st.live
    rw [List.filter_append, hfilter]
    simp
  · cases winner <;> rfl
  · cases winner with
    | operationFirst =>
      rw [if_pos rfl]
      rfl
    | timerFirst =>
      rw [if_neg (by decide)]
      show ((st.live ++ [st.nextId]).filter (fun x => !(x == st.nextId))) = st.live
      rw [List.filter_append, hfilter]
      simp

/-- Witness for claim C7 (amended): both implementations evaluated at a
fresh timer state through the theorem itself. -/
theorem withTimeout_timer_discipline_witness :
    (withTimeoutShared (⟨0, []⟩ : TimerState) RaceWinner.operationFirst
        (OpResult.resolved (5 : Nat))).2.live = [] ∧
    (withTimeoutIngest (⟨0, []⟩ : TimerState) RaceWinner.operationFirst
        (OpResult.resolved (5 : Nat))).2.live = [] ++ [0] := by
  have h := withTimeout_timer_discipline (⟨0, []⟩ : TimerState) RaceWinner.operationFirst
    (OpResult.resolved (5 : Nat)) (by decide)
  exact ⟨h.2.1, by rw [h.2.2.2]; rfl⟩

theorem noLeadWs_iff_head (l : List Char) :
    noLeadWs l = true ↔ ∀ c ∈ l.head?, jsWs c = false := by
  cases l with
  | nil => simp [noLeadWs]
  | cons c t => simp [noLeadWs]

theorem noLeadWs_dropWhile (l : List Char) : noLeadWs (l.dropWhile jsWs) = true := by
  induction l with
  | nil => rfl
  | cons c t ih =>
    by_cases h : jsWs c = true
    · rw [List.dropWhile_cons_of_pos h]
      exact ih
    · rw [List.dropWhile_cons_of_neg h]
      simp only [Bool.not_eq_true] at h
      simp [noLeadWs, h]

theorem collapseRuns_nil : collapseRuns [] = [] := rfl

theorem noLeadWs_collapseRuns {l : List Char} (h : noLeadWs l = true) :
    noLeadWs (collapseRuns l) = true := by
  cases l with
  | nil => rfl
  | cons c t =>
    simp only [noLeadWs, Bool.not_eq_eq_eq_not, Bool.not_true] at h
    cases t with
    | nil => simp [collapseRuns, h, noLeadWs]
    | cons d rest => simp [collapseRuns, h, noLeadWs]

theorem getLast_dropWhile (p : Char → Bool) (l : List Char) :
    l.dropWhile p = [] ∨ (l.dropWhile p).getLast? = l.getLast? := by
  induction l with
  | nil => exact Or.inl rfl
  | cons a t ih =>
    by_cases h : p a = true
    · rw [List.dropWhile_cons_of_pos h]
      rcases ih with h1 | h2
      · exact Or.inl h1
      · by_cases ht : t.dropWhile p = []
        · exact Or.inl ht
        · refine Or.inr ?_
          rw [h2]
          cases t with
          | nil => exact absurd rfl ht
          | cons b t2 => rw [List.getLast?_cons_cons]
    · rw [List.dropWhile_cons_of_neg h]
      exact Or.inr rfl

theorem noLeadWs_jsTrimList (l : List Char) : noLeadWs (jsTrimList l) = true := by
  unfold jsTrimList
  rcases getLast_dropWhile jsWs (l.dropWhile jsWs).reverse with h | h
  · rw [h]
    rfl
  · rw [noLeadWs_iff_head]
    intro c hc
    rw [List.head?_reverse, h, List.getLast?_reverse] at hc
    have := (noLeadWs_iff_head (l.dropWhile jsWs)).mp (noLeadWs_dropWhile l)
    exact this c hc

theorem noTrailWs_jsTrimList (l : List Char) : noTrailWs (jsTrimList l) = true := by
  unfold noTrailWs jsTrimList
  rw [List.reverse_reverse]
  exact noLeadWs_dropWhile _

theorem chain_collapseRuns (l : List Char) : List.Chain' NoTwoWs (collapseRuns l) := by
  induction l with
  | nil => exact List.chain'_nil
  | cons c t ih =>
    cases t with
    | nil =>
      by_cases h : jsWs c = true <;> simp [collapseRuns, h]
    | cons d rest =>
      by_cases hc : jsWs c = true
      · by_cases hd : jsWs d = true
        · have heq : collapseRuns (c :: d :: rest) = collapseRuns (d :: rest) := by
            simp [collapseRuns, hc, hd]
          rw [heq]
          exact ih
        · have heq : collapseRuns (c :: d :: rest) = ' ' :: collapseRuns (d :: rest) := by
            simp [collapseRuns, hc, hd]
          rw [heq, List.chain'_cons']
          constructor
          · intro b hb
            right
            have hlead : noLeadWs (collapseRuns (d :: rest)) = true := by
              refine noLeadWs_collapseRuns ?_
              simp only [Bool.not_eq_true] at hd
              simp [noLeadWs, hd]
            exact (noLeadWs_iff_head _).mp hlead b hb
          · exact ih
      · have heq : collapseRuns (c :: d :: rest) = c :: collapseRuns (d :: rest) := by
          simp [collapseRuns, hc]
        rw [heq, List.chain'_cons']
        simp only [Bool.not_eq_true] at hc
        exact ⟨fun b hb => Or.inl hc, ih⟩

theorem chain_jsTrimList {l : List Char} (h : List.Chain' NoTwoWs l) :
    List.Chain' NoTwoWs (jsTrimList l) := by
  have hsymm : ∀ a b : Char, NoTwoWs a b → NoTwoWs b a := fun a b hab => hab.symm
  unfold jsTrimList
  have h1 : List.Chain' NoTwoWs (l.dropWhile jsWs) :=
    h.suffix (List.dropWhile_suffix jsWs)
  have h2 : List.Chain' NoTwoWs (l.dropWhile jsWs).reverse := by
    rw [List.chain'_reverse]
    exact h1.imp hsymm
  have h3 : List.Chain' NoTwoWs ((l.dropWhile jsWs).reverse.dropWhile jsWs) :=
    h2.suffix (List.dropWhile_suffix jsWs)
  rw [List.chain'_reverse]
  exact h3.imp hsymm

theorem collapseWhitespace_wellformed (v : List Char) :
    noLeadWs (collapseWhitespace v) = true ∧ noTrailWs (collapseWhitespace v) = true ∧
    List.Chain' NoTwoWs (collapseWhitespace v) :=
  ⟨noLeadWs_jsTrimList _, noTrailWs_jsTrimList _, chain_jsTrimList (chain_collapseRuns v)⟩

theorem stripHtmlTags_wellformed (html : List Char) :
    noLeadWs (stripHtmlTags html) = true ∧ noTrailWs (stripHtmlTags html) = true ∧
    List.Chain' NoTwoWs (stripHtmlTags html) :=
  collapseWhitespace_wellformed _

theorem extractInnhold_none_of_no_begin (html : List Char)
    (hb : listIndexOf INNHOLD_BEGIN html = none) :
    extractInnholdSection html = none := by
  simp [extractInnholdSection, extractBetweenComments, hb]

theorem extractInnhold_none_of_no_end (html : List Char) (i : Nat)
    (hb : listIndexOf INNHOLD_BEGIN html = some i)
    (he : listIndexOf INNHOLD_END (List.drop (i + INNHOLD_BEGIN.length) html) = none) :
    extractInnholdSection html = none := by
  simp [extractInnholdSection, extractBetweenComments, hb, he]

theorem extractInnhold_none_of_adjacent (html : List Char) (i : Nat)
    (hb : listIndexOf INNHOLD_BEGIN html = some i)
    (he : listIndexOf INNHOLD_END (List.drop (i + INNHOLD_BEGIN.length) html) = some 0) :
    extractInnholdSection html = none := by
  simp [extractInnholdSection, extractBetweenComments, hb, he]

theorem extractBetween_eq_some (html : List Char) (i j : Nat)
    (hb : listIndexOf INNHOLD_BEGIN html = some i)
    (he : listIndexOf INNHOLD_END (List.drop (i + INNHOLD_BEGIN.length) html) = some j)
    (hj : ¬j = 0) :
    extractBetweenComments html INNHOLD_BEGIN INNHOLD_END =
      some (jsTrimList ((html.drop (i + INNHOLD_BEGIN.length)).take j)) := by
  simp [extractBetweenComments, hb, he, hj]

theorem extractInnhold_none_of_clean_empty (html : List Char) (sec : List Char)
    (hbc : extractBetweenComments html INNHOLD_BEGIN INNHOLD_END = some sec)
    (ht : stripHtmlTags sec = []) :
    extractInnholdSection html = none := by
  by_cases hs : sec = []
  · simp [extractInnholdSection, hbc, hs]
  · simp [extractInnholdSection, hbc, hs, ht]

theorem extractInnhold_some_of_clean_nonempty (html : List Char) (sec : List Char)
    (hbc : extractBetweenComments html INNHOLD_BEGIN INNHOLD_END = some sec)
    (hs : ¬sec = [])
    (ht : ¬stripHtmlTags sec = []) :
    extractInnholdSection html = some (stripHtmlTags sec) := by
  have hlen : (stripHtmlTags sec).length > 0 := by
    cases hcase : stripHtmlTags sec with
    | nil => exact absurd hcase ht
    | cons a l => simp
  simp [extractInnholdSection, hbc, hs, hlen]

set_option maxHeartbeats 2000000 in
/-- Claim C3: `extractInnholdSection` returns `none` exactly when the begin
marker is absent, the end marker does not occur after it, or the delimited
region cleans to the empty string; otherwise it returns the delimited
region cleaned by `stripHtmlTags` (tags removed, the fixed entity set
decoded, whitespace collapsed), and the result carries no leading or
trailing whitespace and no two consecutive whitespace characters. -/
theorem extractInnholdSection_spec (html : List Char) :
    (extractInnholdSection html = none ↔
      listIndexOf INNHOLD_BEGIN html = none ∨
      ∃ i, listIndexOf INNHOLD_BEGIN html = some i ∧
        (listIndexOf INNHOLD_END (html.drop (i + INNHOLD_BEGIN.length)) = none ∨
         ∃ j, listIndexOf INNHOLD_END (html.drop (i + INNHOLD_BEGIN.length)) = some j ∧
           stripHtmlTags (jsTrimList ((html.drop (i + INNHOLD_BEGIN.length)).take j)) = [])) ∧
    (∀ out, extractInnholdSection html = some out →
      (∃ i j, listIndexOf INNHOLD_BEGIN html = some i ∧
        listIndexOf INNHOLD_END (html.drop (i + INNHOLD_BEGIN.length)) = some j ∧ j ≠ 0 ∧
        out = stripHtmlTags (jsTrimList ((html.drop (i + INNHOLD_BEGIN.length)).take j))) ∧
      noLeadWs out = true ∧ noTrailWs out = true ∧ List.Chain' NoTwoWs out) := by
  cases hb : listIndexOf INNHOLD_BEGIN html with
  | none =>
    have hnone := extractInnhold_none_of_no_begin html hb
    rw [hnone]
    refine ⟨⟨fun _ => Or.inl rfl, fun _ => rfl⟩, ?_⟩
    intro out hout
    exact absurd hout (by simp)
  | some i =>
    cases he : listIndexOf INNHOLD_END (html.drop (i + INNHOLD_BEGIN.length)) with
    | none =>
      have hnone := extractInnhold_none_of_no_end html i hb he
      rw [hnone]
      refine ⟨⟨fun _ => Or.inr ⟨i, rfl, Or.inl he⟩, fun _ => rfl⟩, ?_⟩
      intro out hout
      exact absurd hout (by simp)
    | some j =>
      by_cases hj : j = 0
      · subst hj
        have hnone := extractInnhold_none_of_adjacent html i hb he
        rw [hnone]
        refine ⟨⟨fun _ => Or.inr ⟨i, rfl, Or.inr ⟨0, he, ?_⟩⟩, fun _ => rfl⟩, ?_⟩
        · rw [List.take_zero]
          rfl
        · intro out hout
          exact absurd hout (by simp)
      · have hbc := extractBetween_eq_some html i j hb he hj
        by_cases ht : stripHtmlTags (jsTrimList ((html.drop (i + INNHOLD_BEGIN.length)).take j)) = []
        · have hnone := extractInnhold_none_of_clean_empty html _ hbc ht
          rw [hnone]
          refine ⟨⟨fun _ => Or.inr ⟨i, rfl, Or.inr ⟨j, he, ht⟩⟩, fun _ => rfl⟩, ?_⟩
          intro out hout
          exact absurd hout (by simp)
        · by_cases hs : jsTrimList ((html.drop (i + INNHOLD_BEGIN.length)).take j) = []
          · exact absurd (by rw [hs]; rfl) ht
          · have hsome := extractInnhold_some_of_clean_nonempty html _ hbc hs ht
            rw [hsome]
            constructor
            · constructor
              · intro hcon
                exact absurd hcon (by simp)
              · rintro (hcon | ⟨i2, hi2, hcon2 | ⟨j2, hj2, hstrip2⟩⟩)
                · exact absurd hcon (by simp)
                · have hi2e := Option.some.inj hi2
                  subst hi2e
                  rw [he] at hcon2
                  exact absurd hcon2 (by simp)
                · have hi2e := Option.some.inj hi2
                  subst hi2e
                  rw [he] at hj2
                  have hj2e := Option.some.inj hj2
                  subst hj2e
                  exact absurd hstrip2 ht
            · intro out hout
              have houte := Option.some.inj hout
              subst houte
              refine ⟨⟨i, j, rfl, he, hj, rfl⟩, ?_, ?_, ?_⟩
              · exact (stripHtmlTags_wellformed _).1
              · exact (stripHtmlTags_wellformed _).2.1
              · exact (stripHtmlTags_wellformed _).2.2

/-- Witness for claim C3: a concrete page whose INNHOLD region cleans to
"Hi there", with the well-formedness facts obtained through the theorem
itself. -/
theorem extractInnholdSection_spec_witness :
    extractInnholdSection "<!-- INNHOLD --> <p>Hi&nbsp;there</p> <!-- /INNHOLD -->".data =
      some "Hi there".data ∧
    noLeadWs "Hi there".data = true ∧ noTrailWs "Hi there".data = true ∧
    List.Chain' NoTwoWs "Hi there".data := by
  have hsome :
      extractInnholdSection "<!-- INNHOLD --> <p>Hi&nbsp;there</p> <!-- /INNHOLD -->".data =
        some "Hi there".data := by decide
  have h := (extractInnholdSection_spec
    "<!-- INNHOLD --> <p>Hi&nbsp;there</p> <!-- /INNHOLD -->".data).2 "Hi there".data hsome
  exact ⟨hsome, h.2.1, h.2.2.1, h.2.2.2⟩
